import Mathlib

/-!
# T265 UDP pose sender: a verification development

Shallow embedding of `t265_udp_pose_sender.cpp`:

* `make_json`: the serializer (an `ostringstream` in `fixed` mode, precision 6);
* `stream_camera`: the per-device worker (socket, pipeline start, frame loop);
* `main`: device enumeration and worker launch.

Floating-point data are modelled by `Fp`, an exact description of an IEEE-754
datum (sign, and either a dyadic magnitude `m * 2^e`, an infinity or a NaN).
`float` and `double` share this type: the widening `float -> double` done by
`operator<<` is exact, and the only rounding operation of the program, the
`double` product `get_timestamp() * 0.001`, is `Fp.mul64`.
-/

namespace T265

/-! ## Floating-point data -/

/-- An IEEE-754 binary datum: `finite s m e` is `(-1)^s * m * 2^e`. -/
inductive Fp where
  | finite (neg : Bool) (m : Nat) (e : Int)
  | inf (neg : Bool)
  | nan (neg : Bool)
  deriving DecidableEq, Repr

/-- Unary minus of C++ on a floating value: the sign bit is flipped. -/
def Fp.neg : Fp → Fp
  | .finite s m e => .finite (!s) m e
  | .inf s => .inf (!s)
  | .nan s => .nan (!s)

instance : Neg Fp := ⟨Fp.neg⟩

/-- Whether the datum is a finite number (neither infinity nor NaN). -/
def Fp.isFinite : Fp → Bool
  | .finite _ _ _ => true
  | _ => false

/-- The rational number a finite datum denotes (`0` for infinities and NaN). -/
def Fp.toRat : Fp → ℚ
  | .finite s m e => (if s then -1 else 1) * (m : ℚ) * (2 : ℚ) ^ e
  | _ => 0

/-- Round `num / den` to the nearest natural number, ties to even. -/
def roundHalfEven (num den : Nat) : Nat :=
  let q := num / den
  let r := num % den
  if 2 * r < den then q
  else if den < 2 * r then q + 1
  else if q % 2 = 0 then q else q + 1

/-- Number of binary digits of `n` (`fuel` bounds the recursion). -/
def bitLenAux : Nat → Nat → Nat
  | 0, _ => 0
  | fuel + 1, n => if n = 0 then 0 else bitLenAux fuel (n / 2) + 1

/-- Number of binary digits of `n`: the least `k` with `n < 2^k`. -/
def bitLen (n : Nat) : Nat := bitLenAux n n

/-- Rounding of the exact value `m * 2^e` to binary64 (53 significant bits,
least exponent `-1074`, overflow to infinity), round-to-nearest-even. -/
def roundBinary64 (neg : Bool) (m : Nat) (e : Int) : Fp :=
  if m = 0 then .finite neg 0 0
  else
    let shift : Int := max ((bitLen m : Int) - 53) (-1074 - e)
    let m1 := if shift ≤ 0 then m else roundHalfEven m (2 ^ shift.toNat)
    let e1 := if shift ≤ 0 then e else e + shift
    if 1024 < (bitLen m1 : Int) + e1 then .inf neg else .finite neg m1 e1

/-- The `double` product `a * b` under the default rounding mode. -/
def Fp.mul64 : Fp → Fp → Fp
  | .nan s, _ => .nan s
  | _, .nan s => .nan s
  | .inf s, .inf t => .inf (xor s t)
  | .inf s, .finite t m _ => if m = 0 then .nan true else .inf (xor s t)
  | .finite s m _, .inf t => if m = 0 then .nan true else .inf (xor s t)
  | .finite s m e, .finite t n f => roundBinary64 (xor s t) (m * n) (e + f)

/-- The `double` literal `0.001`, i.e. `0x3F50624DD2F1A9FC`. -/
def milli : Fp := .finite false 4611686018427388 (-62)

/-! ## Text output of `std::ostringstream` -/

/-- The character of a decimal digit. -/
def digitChar (d : Nat) : Char :=
  match d with
  | 0 => '0' | 1 => '1' | 2 => '2' | 3 => '3' | 4 => '4'
  | 5 => '5' | 6 => '6' | 7 => '7' | 8 => '8' | _ => '9'

/-- The last `k` decimal digits of `n`, zero padded. -/
def padDigits : Nat → Nat → List Char
  | 0, _ => []
  | k + 1, n => padDigits k (n / 10) ++ [digitChar (n % 10)]

/-- Decimal digits of `n` without leading zeros (`fuel` bounds the recursion). -/
def natDigitsAux : Nat → Nat → List Char
  | 0, n => [digitChar (n % 10)]
  | fuel + 1, n =>
    if n < 10 then [digitChar n] else natDigitsAux fuel (n / 10) ++ [digitChar (n % 10)]

/-- Decimal digits of `n` without leading zeros. -/
def natDigits (n : Nat) : List Char := natDigitsAux n n

/-- Output of `o << i` for an `int`: decimal, with a leading `-` when negative. -/
def fmtInt (i : Int) : List Char :=
  if i < 0 then '-' :: natDigits i.natAbs else natDigits i.natAbs

/-- The value `m * 2^e * 10^6` rounded to an integer (ties to even). -/
def scaled6 (m : Nat) (e : Int) : Nat :=
  match e with
  | Int.ofNat k => m * 2 ^ k * 1000000
  | Int.negSucc k => roundHalfEven (m * 1000000) (2 ^ (k + 1))

/-- The sign prefix printed for a set sign bit. -/
def signChars (s : Bool) : List Char := if s then ['-'] else []

/-- Output of `o << x` for a floating value with `fixed` and `setprecision(6)`
(the `%.6f` conversion, correctly rounded, ties to even): sign, integer
digits, a point and six digits for a finite value; the tokens `inf` and `nan`
of the C library for the special values (some libraries spell a negative NaN
`-nan(ind)`; no spelling is a decimal number). -/
def fmtFixed6 : Fp → List Char
  | .finite s m e =>
    signChars s ++ natDigits (scaled6 m e / 1000000) ++ '.' :: padDigits 6 (scaled6 m e % 1000000)
  | .inf s => signChars s ++ ['i', 'n', 'f']
  | .nan s => signChars s ++ ['n', 'a', 'n']

/-! ## `make_json` -/

/-- The serializer `make_json` (source lines 55-85). -/
def make_json (droneId : Int) (timestamp : Fp) (px py pz : Fp) (qx qy qz qw : Fp)
    (tracker_conf : Int) : String :=
  "\x7b"
    ++ "\"DroneId\":" ++ String.mk (fmtInt droneId) ++ ","
    ++ "\"Timestamp\":" ++ String.mk (fmtFixed6 timestamp) ++ ","
    ++ "\"Position\":\x7b"
    ++ "\"x\":" ++ String.mk (fmtFixed6 px) ++ ","
    ++ "\"y\":" ++ String.mk (fmtFixed6 py) ++ ","
    ++ "\"z\":" ++ String.mk (fmtFixed6 pz) ++ "\x7d,"
    ++ "\"Rotation\":\x7b"
    ++ "\"x\":" ++ String.mk (fmtFixed6 qx) ++ ","
    ++ "\"y\":" ++ String.mk (fmtFixed6 qy) ++ ","
    ++ "\"z\":" ++ String.mk (fmtFixed6 qz) ++ ","
    ++ "\"w\":" ++ String.mk (fmtFixed6 qw) ++ "\x7d,"
    ++ "\"TrackingConfidence\":" ++ String.mk (fmtInt tracker_conf)
    ++ "\x7d"

/-! ## Pose data of the SDK (fields read by the program) -/

/-- The SDK record `rs2_vector`. -/
structure rs2_vector (α : Type) where
  x : α
  y : α
  z : α
  deriving DecidableEq, Repr

/-- The SDK record `rs2_quaternion`. -/
structure rs2_quaternion (α : Type) where
  x : α
  y : α
  z : α
  w : α
  deriving DecidableEq, Repr

/-- The SDK record `rs2_pose`, restricted to the fields `stream_camera` reads;
`tracker_confidence` is an `unsigned int`. -/
structure rs2_pose (α : Type) where
  translation : rs2_vector α
  rotation : rs2_quaternion α
  tracker_confidence : Nat
  deriving DecidableEq, Repr

/-- The seven locals `px py pz qx qy qz qw` of `stream_camera`. -/
structure UnityPose (α : Type) where
  px : α
  py : α
  pz : α
  qx : α
  qy : α
  qz : α
  qw : α
  deriving DecidableEq, Repr

/-- The block "Coordinate Conversion (RealSense -> Unity)" (source lines 144-152). -/
def coordinate_conversion {α : Type} [Neg α] (pose : rs2_pose α) : UnityPose α :=
  { px := pose.translation.x
    py := -pose.translation.y
    pz := -pose.translation.z
    qx := -pose.rotation.x
    qy := -pose.rotation.y
    qz := pose.rotation.z
    qw := pose.rotation.w }

/-- The conversion `static_cast<int>` applied to an `unsigned int`. -/
def static_cast_int (u : Nat) : Int :=
  if u % 4294967296 < 2147483648 then (u % 4294967296 : Nat)
  else ((u % 4294967296 : Nat) : Int) - 4294967296

/-- Increment of the `int` frame counter, with two's complement wrap-around at
`2^31` (what the target compiler emits for the overflowing `++`). -/
def int_incr (c : Int) : Int := (c + 1 + 2147483648) % 4294967296 - 2147483648

/-! ## Configuration constants -/

/-- The constant `DEST_IP`. -/
def DEST_IP : String := "127.0.0.1"

/-- The constant `BASE_PORT`. -/
def BASE_PORT : Int := 5005

/-- The constant `SEND_RATE_HZ`. -/
def SEND_RATE_HZ : Nat := 120

/-- The local `send_interval` of `stream_camera`, in milliseconds. -/
def send_interval : Nat := 1000 / SEND_RATE_HZ

/-! ## The worker `stream_camera` -/

/-- The destination address `dest`: `sin_port` is `htons(port)`, a 16-bit
value, and `sin_addr` the parsed `DEST_IP`. -/
structure sockaddr_in where
  sin_port : Nat
  sin_addr : String
  deriving DecidableEq, Repr

/-- Observable actions of the program, in program order per thread. -/
inductive Event where
  | cout (text : String)
  | cerr (text : String)
  | wsa_startup
  | socket (result : Option Nat)
  | pipe_start (serial : String)
  | sendto (sock : Nat) (dest : sockaddr_in) (payload : String)
  | cout_status (droneId : Int) (px py pz : Fp) (confidence : Int)
  | sleep_ms (ms : Nat)
  deriving DecidableEq, Repr

/-- What one pass through the `try` block of the loop meets: a frame set with
a pose frame (pose data and timestamp in milliseconds), a frame set without
pose frame, or an `rs2::error` raised by the pipeline. -/
inductive FrameOutcome where
  | pose (data : rs2_pose Fp) (timestamp_ms : Fp)
  | no_pose
  | error (what : String)
  deriving DecidableEq, Repr

/-- The locals of `stream_camera` that are live in the frame loop. -/
structure LoopState where
  pipe : String
  sock : Nat
  dest : sockaddr_in
  droneId : Int
  port : Int
  frame_counter : Int
  deriving DecidableEq, Repr

/-- Whether a thread running `stream_camera` has returned or sits at the head
of its frame loop. -/
inductive WorkerStatus where
  | returned
  | waiting (st : LoopState)
  deriving DecidableEq, Repr

/-- The environment of one worker: the result of `socket(...)` (`none` is
`INVALID_SOCKET`), the `rs2::error` raised by `pipe.start` if any, and the
outcomes of the successive passes of the frame loop. Exceptions other than
`rs2::error`, which the program does not catch, are outside the model. -/
structure WorkerEnv where
  socket_result : Option Nat
  start_error : Option String
  frames : List FrameOutcome

/-- One iteration of the `while (true)` loop (source lines 132-197). -/
def loop_step (st : LoopState) : FrameOutcome → LoopState × List Event
  | .no_pose => (st, [])
  | .error what =>
    (st, [.cerr ("RealSense error (Drone " ++ String.mk (fmtInt st.droneId) ++ "): " ++ what ++ "\n"),
          .sleep_ms 1000])
  | .pose data timestamp_ms =>
    let u := coordinate_conversion data
    let confidence := static_cast_int data.tracker_confidence
    let timestamp := Fp.mul64 timestamp_ms milli
    let json := make_json st.droneId timestamp u.px u.py u.pz u.qx u.qy u.qz u.qw confidence
    let frame_counter := int_incr st.frame_counter
    ({ st with frame_counter := frame_counter },
      [.sendto st.sock st.dest json]
        ++ (if frame_counter % 120 = 0 then [.cout_status st.droneId u.px u.py u.pz confidence]
            else [])
        ++ [.sleep_ms send_interval])

/-- The frame loop run over a finite sequence of outcomes. -/
def run_loop (st : LoopState) : List FrameOutcome → LoopState × List Event
  | [] => (st, [])
  | o :: os =>
    let r := loop_step st o
    let r2 := run_loop r.1 os
    (r2.1, r.2 ++ r2.2)

/-- The worker `stream_camera` (source lines 90-200), run until the outcomes
supplied by its environment are used up. -/
def stream_camera (serial : String) (droneId : Int) (port : Int) (env : WorkerEnv) :
    List Event × WorkerStatus :=
  match env.socket_result with
  | none =>
    ([.socket none,
      .cerr ("Socket creation failed for Drone " ++ String.mk (fmtInt droneId) ++ "\n")],
     .returned)
  | some sock =>
    let dest : sockaddr_in := { sin_port := (port % 65536).toNat, sin_addr := DEST_IP }
    let pre : List Event :=
      [.socket (some sock),
       .cout ("Drone " ++ String.mk (fmtInt droneId) ++ " | Serial: " ++ serial
                ++ " | Port: " ++ String.mk (fmtInt port) ++ "\n"),
       .pipe_start serial]
    match env.start_error with
    | some what =>
      (pre ++ [.cerr ("Pipeline start failed (Drone " ++ String.mk (fmtInt droneId) ++ "): "
                        ++ what ++ "\n")],
       .returned)
    | none =>
      let r := run_loop { pipe := serial, sock := sock, dest := dest, droneId := droneId,
                          port := port, frame_counter := 0 } env.frames
      (pre ++ r.2, .waiting r.1)

/-! ## `main` -/

/-- A device of `ctx.query_devices()`: its name and serial number. -/
structure Device where
  name : String
  serial : String
  deriving DecidableEq, Repr

/-- The arguments of one `threads.emplace_back(stream_camera, serial, droneId, port)`. -/
structure Thread where
  serial : String
  droneId : Int
  port : Int
  deriving DecidableEq, Repr

/-- Whether `pat` occurs in the text: `text.find(pat) != std::string::npos`. -/
def str_contains (pat : List Char) : List Char → Bool
  | [] => pat.isEmpty
  | c :: cs => pat.isPrefixOf (c :: cs) || str_contains pat cs

/-- The test `name.find("T265") != std::string::npos`. -/
def is_T265 (d : Device) : Bool := str_contains ['T', '2', '6', '5'] d.name.data

/-- The state of the enumeration loop of `main`. -/
structure EnumState where
  droneId : Int
  threads : List Thread
  events : List Event

/-- The body of `for (auto dev : devices)` (source lines 228-251). -/
def enum_step (s : EnumState) (dev : Device) : EnumState :=
  let line := Event.cout ("  " ++ dev.name ++ " | S/N: " ++ dev.serial ++ "\n")
  if is_T265 dev then
    { droneId := s.droneId + 1
      threads := s.threads ++ [{ serial := dev.serial, droneId := s.droneId,
                                 port := BASE_PORT + s.droneId }]
      events := s.events ++ [line] }
  else
    { s with events := s.events ++ [line] }

/-- How `main` ends: with an exit status, or blocked in `t.join()` on the
launched workers. -/
inductive MainStatus where
  | exit (code : Int)
  | joining
  deriving DecidableEq, Repr

/-- The outcome of `main`: its own actions, the workers launched and its end. -/
structure MainResult where
  events : List Event
  threads : List Thread
  status : MainStatus

/-- The function `main` (source lines 205-268), given the result of
`WSAStartup` and the device list of `ctx.query_devices()`. -/
def main (wsa_startup : Int) (devices : List Device) : MainResult :=
  if wsa_startup ≠ 0 then
    { events := [.wsa_startup, .cerr "WSAStartup failed\n"], threads := [], status := .exit 1 }
  else if devices.length = 0 then
    { events := [.wsa_startup, .cerr "No RealSense devices found.\n"], threads := [],
      status := .exit 1 }
  else
    let s := devices.foldl enum_step
      { droneId := 0, threads := [], events := [.wsa_startup, .cout "Detected devices:\n"] }
    if s.threads.isEmpty then
      { events := s.events ++ [.cerr "No T265 devices detected.\n"], threads := [],
        status := .exit 1 }
    else
      { events := s.events ++ [.cout ("\nStarted " ++ String.mk (natDigits s.threads.length)
                                        ++ " T265 stream(s).\n")],
        threads := s.threads, status := .joining }

/-- The run of the worker threads launched by `main`: the `i`-th launched
thread runs `stream_camera` on its own arguments in the environment `env i`. -/
def run_workers (threads : List Thread) (env : Nat → WorkerEnv) :
    List (List Event × WorkerStatus) :=
  threads.enum.map fun p => stream_camera p.2.serial p.2.droneId p.2.port (env p.1)

/-- All actions of the process: those of `main` and those of every worker. -/
def process_events (wsa_startup : Int) (devices : List Device) (env : Nat → WorkerEnv) :
    List Event :=
  (main wsa_startup devices).events
    ++ ((run_workers (main wsa_startup devices).threads env).map Prod.fst).flatten

/-! ## Observations on event traces -/

/-- The datagram payloads of a trace, in the order they were sent. -/
def payloads : List Event → List String
  | [] => []
  | .sendto _ _ payload :: es => payload :: payloads es
  | _ :: es => payloads es

/-- The rate-limiting and retry pauses of a trace, in order. -/
def sleeps : List Event → List Nat
  | [] => []
  | .sleep_ms ms :: es => ms :: sleeps es
  | _ :: es => sleeps es

/-- Whether an action is network or pipeline setup or use: a socket creation,
a pipeline start or a datagram send. -/
def Event.is_setup : Event → Bool
  | .socket _ => true
  | .pipe_start _ => true
  | .sendto _ _ _ => true
  | _ => false

/-- Whether an outcome is a frame set carrying a pose frame. -/
def FrameOutcome.has_pose : FrameOutcome → Bool
  | .pose _ _ => true
  | _ => false

/-- The record the worker of identifier `d` emits for an outcome, if any:
for a pose frame, `make_json` of the identifier, the timestamp in seconds,
the sign-flipped pose and the confidence. -/
def frame_record (d : Int) : FrameOutcome → Option String
  | .pose data t =>
    some (make_json d (Fp.mul64 t milli)
      data.translation.x (-data.translation.y) (-data.translation.z)
      (-data.rotation.x) (-data.rotation.y) data.rotation.z data.rotation.w
      (static_cast_int data.tracker_confidence))
  | _ => none

/-- The bindings of the matching devices when identifiers are handed out in
order from `start`: serial, identifier, port `BASE_PORT + identifier`. -/
def bindings (start : Int) : List Device → List Thread
  | [] => []
  | dev :: devs =>
    { serial := dev.serial, droneId := start, port := BASE_PORT + start }
      :: bindings (start + 1) devs

/-! ## Rotations (for the consistency of the conversion) -/

/-- The rotation `v ↦ q v q⁻¹` of a unit quaternion `q = (x, y, z, w)`, as the
usual rotation matrix applied to `v`. -/
def rotate (q : rs2_quaternion ℚ) (v : rs2_vector ℚ) : rs2_vector ℚ :=
  { x := (1 - 2 * (q.y * q.y + q.z * q.z)) * v.x + 2 * (q.x * q.y - q.z * q.w) * v.y
          + 2 * (q.x * q.z + q.y * q.w) * v.z
    y := 2 * (q.x * q.y + q.z * q.w) * v.x + (1 - 2 * (q.x * q.x + q.z * q.z)) * v.y
          + 2 * (q.y * q.z - q.x * q.w) * v.z
    z := 2 * (q.x * q.z - q.y * q.w) * v.x + 2 * (q.y * q.z + q.x * q.w) * v.y
          + (1 - 2 * (q.x * q.x + q.y * q.y)) * v.z }

/-- The position the conversion emits for the position `v`. -/
def convert_position (v : rs2_vector ℚ) : rs2_vector ℚ :=
  let u := coordinate_conversion { translation := v, rotation := ⟨0, 0, 0, 1⟩,
                                   tracker_confidence := 0 }
  ⟨u.px, u.py, u.pz⟩

/-- The quaternion the conversion emits for the orientation `q`. -/
def convert_rotation (q : rs2_quaternion ℚ) : rs2_quaternion ℚ :=
  let u := coordinate_conversion { translation := ⟨0, 0, 0⟩, rotation := q,
                                   tracker_confidence := 0 }
  ⟨u.qx, u.qy, u.qz, u.qw⟩

/-- The reflection `(x, y, z) ↦ (x, y, -z)` that swaps handedness. -/
def flip_z (v : rs2_vector ℚ) : rs2_vector ℚ := ⟨v.x, v.y, -v.z⟩

/-! ## The record schema -/

/-- The fixed schema of the wire format, with one hole per value, keys in the
order `DroneId`, `Timestamp`, `Position` (`x`, `y`, `z`), `Rotation` (`x`,
`y`, `z`, `w`), `TrackingConfidence`. -/
def record_schema (droneId timestamp px py pz qx qy qz qw conf : String) : String :=
  "\x7b\"DroneId\":" ++ droneId ++ ",\"Timestamp\":" ++ timestamp
    ++ ",\"Position\":\x7b\"x\":" ++ px ++ ",\"y\":" ++ py ++ ",\"z\":" ++ pz
    ++ "\x7d,\"Rotation\":\x7b\"x\":" ++ qx ++ ",\"y\":" ++ qy ++ ",\"z\":" ++ qz
    ++ ",\"w\":" ++ qw ++ "\x7d,\"TrackingConfidence\":" ++ conf ++ "\x7d"

/-- The leading sign of a text and the text after it. -/
def parse_sign : List Char → Bool × List Char
  | '-' :: cs => (true, cs)
  | cs => (false, cs)

/-- The longest prefix of decimal digits of a text, and the text after it. -/
def span_digits : List Char → List Char × List Char
  | [] => ([], [])
  | c :: cs =>
    if c.isDigit then
      let r := span_digits cs
      (c :: r.1, r.2)
    else ([], c :: cs)

/-- Whether a text is a plain decimal integer: an optional `-` and one or more
digits. -/
def is_plain_int (s : List Char) : Bool :=
  let body := (parse_sign s).2
  !(span_digits body).1.isEmpty && (span_digits body).2.isEmpty

/-- Whether a text is a number in fixed notation with exactly six digits after
the decimal point: an optional `-`, one or more digits, a point, six digits. -/
def is_fixed6 (s : List Char) : Bool :=
  let body := (parse_sign s).2
  !(span_digits body).1.isEmpty &&
    match (span_digits body).2 with
    | '.' :: frac => (span_digits frac).1.length == 6 && (span_digits frac).2.isEmpty
    | _ => false

/-! ## Reading a record back -/

/-- Modelled from the spec: the value of a decimal digit character, for the
parser of the wire format, which is missing from the source. -/
def digitVal (c : Char) : Nat := c.toNat - 48

/-- Modelled from the spec: the number a sequence of decimal digits denotes,
for the parser of the wire format, which is missing from the source. -/
def parse_digits (cs : List Char) : Nat := cs.foldl (fun a c => 10 * a + digitVal c) 0

/-- Whether a text is empty or starts with a character that is not a digit. -/
def non_digit_start : List Char → Bool
  | [] => true
  | c :: _ => !c.isDigit

/-- Modelled from the spec: the receiver's parser is not part of the C++
source; this is the record a reader of the wire format obtains, with the
integers exact and the decimal fields as the rational numbers their text
denotes. -/
structure ParsedRecord where
  DroneId : Int
  Timestamp : ℚ
  Position : rs2_vector ℚ
  Rotation : rs2_quaternion ℚ
  TrackingConfidence : Int
  deriving DecidableEq

/-- Modelled from the spec: reading a fixed piece of text (a key of the wire
format, missing from the source with the rest of the parser); the remaining
text is returned. -/
def expect_text : List Char → List Char → Option (List Char)
  | [], s => some s
  | _ :: _, [] => none
  | c :: cs, d :: ds => if c = d then expect_text cs ds else none

/-- Modelled from the spec: reading a plain decimal integer (`<int>` of the
wire format; the parser is missing from the source): an optional `-` and one
or more digits. -/
def parse_int (s : List Char) : Option (Int × List Char) :=
  let sg := parse_sign s
  let sp := span_digits sg.2
  if sp.1.isEmpty then none
  else some (if sg.1 then -(parse_digits sp.1 : Int) else (parse_digits sp.1 : Int), sp.2)

/-- Modelled from the spec: reading a decimal number (`<float>` of the wire
format; the parser is missing from the source): an optional `-`, one or more
digits, and optionally a point followed by one or more digits; the result is
the exact rational value of the text. -/
def parse_number (s : List Char) : Option (ℚ × List Char) :=
  let sg := parse_sign s
  let ip := span_digits sg.2
  if ip.1.isEmpty then none
  else
    match ip.2 with
    | '.' :: t =>
      let fp := span_digits t
      if fp.1.isEmpty then none
      else some ((if sg.1 then -1 else 1)
              * ((parse_digits ip.1 : ℚ) + (parse_digits fp.1 : ℚ) / 10 ^ fp.1.length), fp.2)
    | rest => some ((if sg.1 then -1 else 1) * (parse_digits ip.1 : ℚ), rest)

/-- Modelled from the spec: reading a key of the wire format followed by its
decimal value (the parser is missing from the source). -/
def parse_key_number (key : List Char) (s : List Char) : Option (ℚ × List Char) :=
  (expect_text key s).bind parse_number

/-- Modelled from the spec: reading a key of the wire format followed by its
integer value (the parser is missing from the source). -/
def parse_key_int (key : List Char) (s : List Char) : Option (Int × List Char) :=
  (expect_text key s).bind parse_int

/-- Modelled from the spec: reading the `Position` object of the wire format
(the parser is missing from the source). -/
def parse_position (s : List Char) : Option (rs2_vector ℚ × List Char) :=
  (parse_key_number ",\"Position\":\x7b\"x\":".data s).bind fun x =>
  (parse_key_number ",\"y\":".data x.2).bind fun y =>
  (parse_key_number ",\"z\":".data y.2).bind fun z =>
  some (⟨x.1, y.1, z.1⟩, z.2)

/-- Modelled from the spec: reading the `Rotation` object of the wire format
(the parser is missing from the source). -/
def parse_rotation (s : List Char) : Option (rs2_quaternion ℚ × List Char) :=
  (parse_key_number "\x7d,\"Rotation\":\x7b\"x\":".data s).bind fun x =>
  (parse_key_number ",\"y\":".data x.2).bind fun y =>
  (parse_key_number ",\"z\":".data y.2).bind fun z =>
  (parse_key_number ",\"w\":".data z.2).bind fun w =>
  some (⟨x.1, y.1, z.1, w.1⟩, w.2)

/-- Modelled from the spec: the parser of the wire format of section 6 (the
receiving program is not part of the source): the fixed keys in order, each
followed by its value, and nothing after the closing brace. -/
def parse_record (s : String) : Option ParsedRecord :=
  (parse_key_int "\x7b\"DroneId\":".data s.data).bind fun droneId =>
  (parse_key_number ",\"Timestamp\":".data droneId.2).bind fun ts =>
  (parse_position ts.2).bind fun pos =>
  (parse_rotation pos.2).bind fun rot =>
  (parse_key_int "\x7d,\"TrackingConfidence\":".data rot.2).bind fun conf =>
  (expect_text "\x7d".data conf.2).bind fun rest =>
  if rest.isEmpty then
    some { DroneId := droneId.1, Timestamp := ts.1, Position := pos.1,
           Rotation := rot.1, TrackingConfidence := conf.1 }
  else none

/-- The rational number that the six-decimal text of a finite value denotes. -/
def fixed_value : Fp → ℚ
  | .finite s m e => (if s then -1 else 1) * ((scaled6 m e : ℚ) / 1000000)
  | _ => 0

/-! ## Sample inputs -/

/-- Two tracking cameras and one other device, in enumeration order. -/
def sample_devices : List Device :=
  [{ name := "Intel RealSense T265", serial := "A" },
   { name := "Intel RealSense D435", serial := "D" },
   { name := "Intel RealSense T265", serial := "B" }]

/-- A device list without any tracking camera. -/
def sample_other_devices : List Device :=
  [{ name := "Intel RealSense D435", serial := "D" }]

/-- The pose of the example of the specification: position `(1, 2, 3)`,
quaternion `(0.1, 0.2, 0.3, 0.9)` as `float` values, confidence `2`. -/
def sample_pose : rs2_pose Fp :=
  { translation := ⟨.finite false 8388608 (-23), .finite false 8388608 (-22),
                    .finite false 12582912 (-22)⟩
    rotation := ⟨.finite false 13421773 (-27), .finite false 13421773 (-26),
                 .finite false 10066330 (-25), .finite false 15099494 (-24)⟩
    tracker_confidence := 2 }

/-- Environments in which the pipeline of the first worker fails to start and
the others receive one pose frame at 1500 ms. -/
def sample_env (k : Nat) : WorkerEnv :=
  if k = 0 then { socket_result := some 7, start_error := some "No device connected", frames := [] }
  else { socket_result := some 8, start_error := none,
         frames := [.pose sample_pose (.finite false 6597069766656000 (-42))] }

/-! # Lemmas and theorems -/

/-! ## Traces of the frame loop -/

theorem payloads_append (a b : List Event) : payloads (a ++ b) = payloads a ++ payloads b := by
  induction a with
  | nil => rfl
  | cons e es ih => cases e <;> simp [payloads, ih]

theorem sleeps_append (a b : List Event) : sleeps (a ++ b) = sleeps a ++ sleeps b := by
  induction a with
  | nil => rfl
  | cons e es ih => cases e <;> simp [sleeps, ih]

theorem loop_step_handles (st : LoopState) (o : FrameOutcome) :
    (loop_step st o).1.pipe = st.pipe ∧ (loop_step st o).1.sock = st.sock ∧
    (loop_step st o).1.dest = st.dest ∧ (loop_step st o).1.droneId = st.droneId ∧
    (loop_step st o).1.port = st.port := by
  cases o <;> simp [loop_step]

theorem loop_step_payloads (st : LoopState) (o : FrameOutcome) :
    payloads (loop_step st o).2 = (frame_record st.droneId o).toList := by
  cases o with
  | no_pose => rfl
  | error what => rfl
  | pose data t =>
    simp only [loop_step, frame_record, coordinate_conversion, Option.toList]
    split <;> simp [payloads]

theorem run_loop_payloads (st : LoopState) (os : List FrameOutcome) :
    payloads (run_loop st os).2 = os.filterMap (frame_record st.droneId) := by
  induction os generalizing st with
  | nil => rfl
  | cons o os ih =>
    simp only [run_loop, payloads_append, ih, (loop_step_handles st o).2.2.2.1,
      loop_step_payloads]
    cases h : frame_record st.droneId o <;> simp [List.filterMap_cons, h]

theorem run_loop_handles (st : LoopState) (os : List FrameOutcome) :
    (run_loop st os).1.pipe = st.pipe ∧ (run_loop st os).1.sock = st.sock ∧
    (run_loop st os).1.dest = st.dest ∧ (run_loop st os).1.droneId = st.droneId ∧
    (run_loop st os).1.port = st.port := by
  induction os generalizing st with
  | nil => simp [run_loop]
  | cons o os ih =>
    have h1 := loop_step_handles st o
    have h2 := ih (loop_step st o).1
    simp only [run_loop]
    refine ⟨h2.1.trans h1.1, h2.2.1.trans h1.2.1, h2.2.2.1.trans h1.2.2.1,
      h2.2.2.2.1.trans h1.2.2.2.1, h2.2.2.2.2.trans h1.2.2.2.2⟩

theorem filterMap_frame_record_length (d : Int) (os : List FrameOutcome) :
    (os.filterMap (frame_record d)).length = os.countP FrameOutcome.has_pose := by
  induction os with
  | nil => rfl
  | cons o os ih =>
    cases o <;> simp [List.filterMap_cons, frame_record, FrameOutcome.has_pose, ih]

theorem run_loop_errors (st : LoopState) (what : String) (n : Nat) :
    run_loop st (List.replicate n (.error what)) =
      (st, (List.replicate n (loop_step st (.error what)).2).flatten) := by
  induction n with
  | zero => rfl
  | succ n ih =>
    simp only [List.replicate_succ, run_loop, List.flatten_cons]
    have h : (loop_step st (.error what)).1 = st := rfl
    rw [h, ih]

theorem neg_toRat (a : Fp) : (-a).toRat = -a.toRat := by
  cases a with
  | finite s m e =>
    show (Fp.neg (.finite s m e)).toRat = _
    cases s <;> simp [Fp.neg, Fp.toRat]
  | inf s => show (Fp.neg (.inf s)).toRat = _; simp [Fp.neg, Fp.toRat]
  | nan s => show (Fp.neg (.nan s)).toRat = _; simp [Fp.neg, Fp.toRat]

set_option maxRecDepth 100000 in
theorem spec_example_record :
    make_json 0 (Fp.mul64 (.finite false 6597069766656000 (-42)) milli)
      (.finite false 8388608 (-23)) (-(.finite false 8388608 (-22)))
      (-(.finite false 12582912 (-22))) (-(.finite false 13421773 (-27)))
      (-(.finite false 13421773 (-26))) (.finite false 10066330 (-25))
      (.finite false 15099494 (-24)) (static_cast_int 2)
    = "\x7b\"DroneId\":0,\"Timestamp\":1.500000,\"Position\":\x7b\"x\":1.000000,\"y\":-2.000000,\"z\":-3.000000\x7d,\"Rotation\":\x7b\"x\":-0.100000,\"y\":-0.200000,\"z\":0.300000,\"w\":0.900000\x7d,\"TrackingConfidence\":2\x7d" := by
  decide

/-! ## Coordinate conversion -/

/-- C1: for every input pose the conversion of `stream_camera` is the fixed
sign flip: `y`, `z` of the position and `x`, `y` of the quaternion are negated,
`x` of the position and `z`, `w` of the quaternion are unchanged; the negation
is the exact floating-point one (finiteness kept, value negated). -/
theorem coordinate_conversion_sign_flip (pose : rs2_pose Fp) :
    (coordinate_conversion pose).px = pose.translation.x ∧
    (coordinate_conversion pose).py = -pose.translation.y ∧
    (coordinate_conversion pose).pz = -pose.translation.z ∧
    (coordinate_conversion pose).qx = -pose.rotation.x ∧
    (coordinate_conversion pose).qy = -pose.rotation.y ∧
    (coordinate_conversion pose).qz = pose.rotation.z ∧
    (coordinate_conversion pose).qw = pose.rotation.w ∧
    (coordinate_conversion pose).py.toRat = -pose.translation.y.toRat ∧
    (coordinate_conversion pose).pz.toRat = -pose.translation.z.toRat ∧
    (coordinate_conversion pose).qx.toRat = -pose.rotation.x.toRat ∧
    (coordinate_conversion pose).qy.toRat = -pose.rotation.y.toRat :=
  ⟨rfl, rfl, rfl, rfl, rfl, rfl, rfl, neg_toRat _, neg_toRat _, neg_toRat _, neg_toRat _⟩

/-! ## The datagram of a pose frame -/

/-- C4: a started worker of identifier `d` sends, for each pose-bearing frame
with timestamp `t` ms, position `(x,y,z)`, quaternion `(qx,qy,qz,qw)` and
confidence `c`, exactly the record `make_json(d, t*0.001, x, -y, -z, -qx, -qy,
qz, qw, c)` (in frame order, nothing else); the confidence is passed through
`static_cast<int>`, the identity below `2^31`; and the example of the
specification evaluates to the stated record. -/
theorem pose_frame_datagram (serial : String) (d port : Int) (sock : Nat)
    (frames : List FrameOutcome) :
    payloads (stream_camera serial d port
        { socket_result := some sock, start_error := none, frames := frames }).1
      = frames.filterMap (fun o =>
          match o with
          | .pose data t =>
            some (make_json d (Fp.mul64 t milli)
              data.translation.x (-data.translation.y) (-data.translation.z)
              (-data.rotation.x) (-data.rotation.y) data.rotation.z data.rotation.w
              (static_cast_int data.tracker_confidence))
          | _ => none)
    ∧ (∀ c : Nat, c < 2147483648 → static_cast_int c = c)
    ∧ payloads (stream_camera serial 0 5005
        { socket_result := some sock, start_error := none,
          frames := [.pose
            { translation := ⟨.finite false 8388608 (-23), .finite false 8388608 (-22),
                              .finite false 12582912 (-22)⟩
              rotation := ⟨.finite false 13421773 (-27), .finite false 13421773 (-26),
                           .finite false 10066330 (-25), .finite false 15099494 (-24)⟩
              tracker_confidence := 2 }
            (.finite false 6597069766656000 (-42))] }).1
      = ["\x7b\"DroneId\":0,\"Timestamp\":1.500000,\"Position\":\x7b\"x\":1.000000,\"y\":-2.000000,\"z\":-3.000000\x7d,\"Rotation\":\x7b\"x\":-0.100000,\"y\":-0.200000,\"z\":0.300000,\"w\":0.900000\x7d,\"TrackingConfidence\":2\x7d"] := by
  refine ⟨?_, ?_, ?_⟩
  · have h : (fun o : FrameOutcome =>
          match o with
          | .pose data t =>
            some (make_json d (Fp.mul64 t milli)
              data.translation.x (-data.translation.y) (-data.translation.z)
              (-data.rotation.x) (-data.rotation.y) data.rotation.z data.rotation.w
              (static_cast_int data.tracker_confidence))
          | _ => none) = frame_record d := by
      funext o; cases o <;> rfl
    rw [h]
    simp only [stream_camera, payloads_append, run_loop_payloads]
    simp [payloads]
  · intro c hc
    have h : c % 4294967296 = c := Nat.mod_eq_of_lt (by omega)
    simp [static_cast_int, h, hc]
  · simp only [stream_camera, payloads_append, run_loop_payloads]
    exact congrArg (fun r => [r]) spec_example_record

/-! ## One packet per pose frame -/

/-- C8: over any finite sequence of frame-wait outcomes processed by a started
worker, the number of datagrams equals the number of pose-bearing frames, the
datagrams are those of the pose frames in frame order, and a frame without
pose data sends nothing, leaves the state (frame counter included) unchanged
and does not sleep. -/
theorem one_packet_per_pose_frame (st : LoopState) (outcomes : List FrameOutcome) :
    (payloads (run_loop st outcomes).2).length = outcomes.countP FrameOutcome.has_pose ∧
    payloads (run_loop st outcomes).2 = outcomes.filterMap (frame_record st.droneId) ∧
    loop_step st .no_pose = (st, []) ∧
    (∀ data t, payloads (loop_step st (.pose data t)).2
        = [make_json st.droneId (Fp.mul64 t milli)
            data.translation.x (-data.translation.y) (-data.translation.z)
            (-data.rotation.x) (-data.rotation.y) data.rotation.z data.rotation.w
            (static_cast_int data.tracker_confidence)]) ∧
    (∀ what, payloads (loop_step st (.error what)).2 = []) := by
  refine ⟨?_, run_loop_payloads st outcomes, rfl, ?_, ?_⟩
  · rw [run_loop_payloads, filterMap_frame_record_length]
  · intro data t
    rw [loop_step_payloads]; rfl
  · intro what; rfl

/-! ## The loop never ends -/

/-- C9: once started, the worker stays in its loop: every outcome leads back
to the waiting state with the same pipeline, socket, destination, identifier
and port; a pipeline error is reported, sends nothing, keeps the frame
counter, sleeps 1000 ms, and any number `n` of consecutive errors is retried
the same way; after any finite sequence of outcomes the worker is waiting. -/
theorem worker_never_terminates (st : LoopState) (serial : String) (d port : Int) (sock : Nat)
    (frames : List FrameOutcome) :
    (∀ o, (loop_step st o).1.pipe = st.pipe ∧ (loop_step st o).1.sock = st.sock ∧
        (loop_step st o).1.dest = st.dest ∧ (loop_step st o).1.droneId = st.droneId ∧
        (loop_step st o).1.port = st.port) ∧
    (∀ what, loop_step st (.error what) =
        (st, [.cerr ("RealSense error (Drone " ++ String.mk (fmtInt st.droneId) ++ "): "
                ++ what ++ "\n"), .sleep_ms 1000])) ∧
    (∀ what n, (run_loop st (List.replicate n (.error what))).1 = st ∧
        payloads (run_loop st (List.replicate n (.error what))).2 = [] ∧
        sleeps (run_loop st (List.replicate n (.error what))).2 = List.replicate n 1000) ∧
    (∃ st1, (stream_camera serial d port
          { socket_result := some sock, start_error := none, frames := frames }).2
        = .waiting st1 ∧ st1.pipe = serial ∧ st1.sock = sock ∧ st1.droneId = d ∧
          st1.port = port) := by
  refine ⟨loop_step_handles st, fun _ => rfl, ?_, ?_⟩
  · intro what n
    rw [run_loop_errors]
    refine ⟨rfl, ?_, ?_⟩
    · induction n with
      | zero => rfl
      | succ n ih =>
        rw [List.replicate_succ, List.flatten_cons, payloads_append, ih]; rfl
    · induction n with
      | zero => rfl
      | succ n ih =>
        rw [List.replicate_succ, List.flatten_cons, sleeps_append, ih]; rfl
  · refine ⟨_, rfl, ?_⟩
    have h := run_loop_handles (LoopState.mk serial sock ⟨(port % 65536).toNat, DEST_IP⟩ d port 0)
      frames
    exact ⟨h.1, h.2.1, h.2.2.2.1, h.2.2.2.2⟩

/-! ## Enumeration -/

theorem bindings_length (k : Int) (l : List Device) : (bindings k l).length = l.length := by
  induction l generalizing k with
  | nil => rfl
  | cons d ds ih => simp [bindings, ih]

theorem bindings_getElem? (k : Int) (l : List Device) (i : Nat) :
    (bindings k l)[i]? = l[i]?.map (fun dev =>
      ({ serial := dev.serial, droneId := k + i, port := BASE_PORT + (k + i) } : Thread)) := by
  induction l generalizing k i with
  | nil => simp [bindings]
  | cons d ds ih =>
    cases i with
    | zero => simp [bindings]
    | succ i =>
      simp only [bindings, List.getElem?_cons_succ, ih, Nat.cast_succ]
      rw [show k + 1 + (i : Int) = k + ((i : Int) + 1) by ring]

theorem enum_fold (s : EnumState) (devs : List Device) :
    (devs.foldl enum_step s).threads
        = s.threads ++ bindings s.droneId (devs.filter is_T265) ∧
    (∀ e ∈ (devs.foldl enum_step s).events, e ∈ s.events ∨ e.is_setup = false) := by
  induction devs generalizing s with
  | nil => exact ⟨by simp [bindings], fun e he => Or.inl he⟩
  | cons d ds ih =>
    simp only [List.foldl_cons]
    have h := ih (enum_step s d)
    by_cases hd : is_T265 d = true
    · have e1 : (enum_step s d).threads
          = s.threads ++ [{ serial := d.serial, droneId := s.droneId,
                            port := BASE_PORT + s.droneId }] := by simp [enum_step, hd]
      have e2 : (enum_step s d).droneId = s.droneId + 1 := by simp [enum_step, hd]
      have e3 : (enum_step s d).events
          = s.events ++ [Event.cout ("  " ++ d.name ++ " | S/N: " ++ d.serial ++ "\n")] := by
        simp [enum_step, hd]
      refine ⟨?_, ?_⟩
      · rw [h.1, e1, e2, List.filter_cons_of_pos hd]
        simp [bindings]
      · intro e he
        rcases h.2 e he with h1 | h1
        · rw [e3, List.mem_append] at h1
          rcases h1 with h1 | h1
          · exact Or.inl h1
          · right
            rw [List.mem_singleton] at h1
            rw [h1]; rfl
        · exact Or.inr h1
    · have e1 : (enum_step s d).threads = s.threads := by simp [enum_step, hd]
      have e2 : (enum_step s d).droneId = s.droneId := by simp [enum_step, hd]
      have e3 : (enum_step s d).events
          = s.events ++ [Event.cout ("  " ++ d.name ++ " | S/N: " ++ d.serial ++ "\n")] := by
        simp [enum_step, hd]
      refine ⟨?_, ?_⟩
      · rw [h.1, e1, e2, List.filter_cons_of_neg hd]
      · intro e he
        rcases h.2 e he with h1 | h1
        · rw [e3, List.mem_append] at h1
          rcases h1 with h1 | h1
          · exact Or.inl h1
          · right
            rw [List.mem_singleton] at h1
            rw [h1]; rfl
        · exact Or.inr h1

theorem enum_fold_events (s : EnumState) (devs : List Device) :
    ∃ tail, (devs.foldl enum_step s).events = s.events ++ tail := by
  induction devs generalizing s with
  | nil => exact ⟨[], by simp⟩
  | cons d ds ih =>
    obtain ⟨t, ht⟩ := ih (enum_step s d)
    have e3 : (enum_step s d).events
        = s.events ++ [Event.cout ("  " ++ d.name ++ " | S/N: " ++ d.serial ++ "\n")] := by
      unfold enum_step
      split <;> rfl
    refine ⟨[Event.cout ("  " ++ d.name ++ " | S/N: " ++ d.serial ++ "\n")] ++ t, ?_⟩
    rw [List.foldl_cons, ht, e3, List.append_assoc]

theorem main_events_head (w : Int) (devices : List Device) :
    (main w devices).events.head? = some .wsa_startup := by
  obtain ⟨t, ht⟩ := enum_fold_events
    { droneId := 0, threads := [], events := [.wsa_startup, .cout "Detected devices:\n"] }
    devices
  unfold main
  split
  · rfl
  · split
    · rfl
    · dsimp only
      split <;> simp [ht]

theorem main_threads (devices : List Device) :
    (main 0 devices).threads = bindings 0 (devices.filter is_T265) := by
  unfold main
  simp only [ne_eq, not_true_eq_false, if_false]
  split
  · rename_i h
    have : devices = [] := List.length_eq_zero.mp h
    subst this; rfl
  · have h := (enum_fold
      { droneId := 0, threads := [], events := [.wsa_startup, .cout "Detected devices:\n"] }
      devices).1
    simp only [List.nil_append] at h
    split
    · rename_i h2
      rw [List.isEmpty_iff] at h2
      rw [← h, h2]
    · exact h

theorem main_events_no_setup (w : Int) (devices : List Device) :
    ∀ e ∈ (main w devices).events, e.is_setup = false := by
  have key : ∀ e ∈ (devices.foldl enum_step
      { droneId := 0, threads := [], events := [.wsa_startup, .cout "Detected devices:\n"] }).events,
      e.is_setup = false := by
    intro e he
    rcases (enum_fold _ devices).2 e he with h | h
    · simp only [List.mem_cons, List.mem_singleton, List.not_mem_nil, or_false] at h
      rcases h with h | h <;> rw [h] <;> rfl
    · exact h
  unfold main
  split
  · intro e he
    simp only [List.mem_cons, List.mem_singleton, List.not_mem_nil, or_false] at he
    rcases he with h | h <;> rw [h] <;> rfl
  · split
    · intro e he
      simp only [List.mem_cons, List.mem_singleton, List.not_mem_nil, or_false] at he
      rcases he with h | h <;> rw [h] <;> rfl
    · dsimp only
      split
      · intro e he
        simp only [List.mem_append, List.mem_singleton] at he
        rcases he with h | h
        · exact key e h
        · rw [h]; rfl
      · intro e he
        simp only [List.mem_append, List.mem_singleton] at he
        rcases he with h | h
        · exact key e h
        · rw [h]; rfl

/-- C5: the devices whose name contains "T265" get, in enumeration order, the
identifiers `0 .. N-1` and the ports `5005 + i`; one worker is launched per
matching device, with its serial, and none for the other devices. -/
theorem enumeration_bindings (devices : List Device) :
    (main 0 devices).threads.length = (devices.filter is_T265).length ∧
    (∀ i : Nat, (main 0 devices).threads[i]? =
        (devices.filter is_T265)[i]?.map (fun dev =>
          ({ serial := dev.serial, droneId := i, port := 5005 + i } : Thread))) ∧
    (main 0 devices).threads.map Thread.serial
        = (devices.filter is_T265).map Device.serial := by
  rw [main_threads]
  refine ⟨bindings_length _ _, ?_, ?_⟩
  · intro i
    rw [bindings_getElem?]
    simp [BASE_PORT]
  · apply List.ext_getElem?
    intro i
    simp only [List.getElem?_map, bindings_getElem?, Option.map_map]
    rfl

/-! ## Start-up failures -/

theorem main_no_match (w : Int) (devices : List Device) (h : devices.filter is_T265 = []) :
    (main w devices).status = .exit 1 ∧ (main w devices).threads = [] := by
  unfold main
  split
  · exact ⟨rfl, rfl⟩
  · split
    · exact ⟨rfl, rfl⟩
    · have h2 := (enum_fold
        { droneId := 0, threads := [], events := [.wsa_startup, .cout "Detected devices:\n"] }
        devices).1
      rw [h] at h2
      simp only [bindings, List.append_nil] at h2
      dsimp only
      rw [h2]
      exact ⟨rfl, rfl⟩

/-- C6: with no enumerated device, or with devices none of which matches
"T265", `main` reports the failure on the error stream and exits with status
1; no worker is launched, and the whole process creates no socket, starts no
pipeline and sends nothing (its first action, the `WSAStartup` call, is the
only use of the transport subsystem). -/
theorem no_matching_device_exits_1 (w : Int) (devices : List Device) (env : Nat → WorkerEnv)
    (h : devices.filter is_T265 = []) :
    (main w devices).status = .exit 1 ∧
    (main w devices).threads = [] ∧
    run_workers (main w devices).threads env = [] ∧
    (∀ e ∈ process_events w devices env, e.is_setup = false) ∧
    (main w devices).events.head? = some .wsa_startup ∧
    (devices = [] →
      (main 0 devices).events = [.wsa_startup, .cerr "No RealSense devices found.\n"]) ∧
    (devices ≠ [] →
      (main 0 devices).events.getLast? = some (.cerr "No T265 devices detected.\n")) := by
  have hm := main_no_match w devices h
  refine ⟨hm.1, hm.2, ?_, ?_, main_events_head w devices, ?_, ?_⟩
  · rw [hm.2]; rfl
  · intro e he
    unfold process_events at he
    rw [hm.2] at he
    simp only [run_workers, List.enum_nil, List.map_nil, List.flatten_nil,
      List.append_nil] at he
    exact main_events_no_setup w devices e he
  · intro hd
    subst hd; rfl
  · intro hd
    have hlen : ¬ devices.length = 0 := fun hl => hd (List.length_eq_zero.mp hl)
    have h2 := (enum_fold
      { droneId := 0, threads := [], events := [.wsa_startup, .cout "Detected devices:\n"] }
      devices).1
    rw [h] at h2
    simp only [bindings, List.append_nil] at h2
    unfold main
    simp only [ne_eq, not_true_eq_false, if_false, hlen, h2, List.isEmpty_nil, if_true]
    simp

/-- Witness for C6 on a device list without tracking camera. -/
theorem no_matching_device_exits_1_witness :
    sample_other_devices.filter is_T265 = [] ∧
    (main 0 sample_other_devices).status = .exit 1 ∧
    (main 0 sample_other_devices).threads = [] ∧
    run_workers (main 0 sample_other_devices).threads sample_env = [] ∧
    (∀ e ∈ process_events 0 sample_other_devices sample_env, e.is_setup = false) ∧
    (main 0 sample_other_devices).events.head? = some .wsa_startup ∧
    (sample_other_devices = [] →
      (main 0 sample_other_devices).events
        = [.wsa_startup, .cerr "No RealSense devices found.\n"]) ∧
    (sample_other_devices ≠ [] →
      (main 0 sample_other_devices).events.getLast?
        = some (.cerr "No T265 devices detected.\n")) :=
  ⟨by decide, no_matching_device_exits_1 0 sample_other_devices sample_env (by decide)⟩

/-! ## Independence of the workers -/

theorem run_workers_getElem? (threads : List Thread) (env : Nat → WorkerEnv) (j : Nat) :
    (run_workers threads env)[j]?
      = threads[j]?.map (fun t => stream_camera t.serial t.droneId t.port (env j)) := by
  simp only [run_workers, List.getElem?_map, List.getElem?_enum, Option.map_map]
  rfl

theorem stream_camera_start_error (serial : String) (d port : Int) (env : WorkerEnv)
    (what : String) (h : env.start_error = some what) :
    payloads (stream_camera serial d port env).1 = [] ∧
    (stream_camera serial d port env).2 = .returned := by
  unfold stream_camera
  cases hs : env.socket_result with
  | none => exact ⟨rfl, rfl⟩
  | some sock =>
    simp only [h]
    exact ⟨by simp [payloads], trivial⟩

/-- C7: when the pipeline of worker `i` fails to start, that worker returns
without sending any packet, while another worker `j` runs `stream_camera` on
its own binding and its own device's outcomes only: its run (events and
packets) is the same under any environment that agrees on worker `j`, whatever
happens to worker `i`. -/
theorem start_failure_is_isolated (devices : List Device) (env env2 : Nat → WorkerEnv)
    (i j : Nat) (ti tj : Thread) (what : String)
    (hi : (main 0 devices).threads[i]? = some ti)
    (hj : (main 0 devices).threads[j]? = some tj)
    (hfail : (env i).start_error = some what)
    (hsame : env2 j = env j) :
    (∃ r, (run_workers (main 0 devices).threads env)[i]? = some r ∧
        payloads r.1 = [] ∧ r.2 = .returned) ∧
    (run_workers (main 0 devices).threads env)[j]?
        = some (stream_camera tj.serial tj.droneId tj.port (env j)) ∧
    (run_workers (main 0 devices).threads env2)[j]?
        = (run_workers (main 0 devices).threads env)[j]? ∧
    (∀ sock, (env j).socket_result = some sock → (env j).start_error = none →
        payloads (stream_camera tj.serial tj.droneId tj.port (env j)).1
          = (env j).frames.filterMap (frame_record tj.droneId)) := by
  refine ⟨?_, ?_, ?_, ?_⟩
  · refine ⟨stream_camera ti.serial ti.droneId ti.port (env i), ?_, ?_⟩
    · rw [run_workers_getElem?, hi]; rfl
    · exact stream_camera_start_error _ _ _ _ what hfail
  · rw [run_workers_getElem?, hj]; rfl
  · rw [run_workers_getElem?, run_workers_getElem?, hsame]
  · intro sock h1 h2
    unfold stream_camera
    simp only [h1, h2, payloads_append, run_loop_payloads]
    simp [payloads]

set_option maxRecDepth 100000 in
/-- Witness for C7: two matching devices, the first one failing to start. -/
theorem start_failure_is_isolated_witness :
    ((main 0 sample_devices).threads[0]? = some ⟨"A", 0, 5005⟩ ∧
     (main 0 sample_devices).threads[1]? = some ⟨"B", 1, 5006⟩ ∧
     (sample_env 0).start_error = some "No device connected" ∧
     (fun k => if k = 0 then sample_env 5 else sample_env k) 1 = sample_env 1) ∧
    ((∃ r, (run_workers (main 0 sample_devices).threads sample_env)[0]? = some r ∧
        payloads r.1 = [] ∧ r.2 = .returned) ∧
     (run_workers (main 0 sample_devices).threads sample_env)[1]?
        = some (stream_camera "B" 1 5006 (sample_env 1)) ∧
     (run_workers (main 0 sample_devices).threads
          (fun k => if k = 0 then sample_env 5 else sample_env k))[1]?
        = (run_workers (main 0 sample_devices).threads sample_env)[1]? ∧
     (∀ sock, (sample_env 1).socket_result = some sock → (sample_env 1).start_error = none →
        payloads (stream_camera "B" 1 5006 (sample_env 1)).1
          = (sample_env 1).frames.filterMap (frame_record 1))) :=
  ⟨⟨by decide, by decide, rfl, rfl⟩,
   start_failure_is_isolated sample_devices sample_env
     (fun k => if k = 0 then sample_env 5 else sample_env k) 0 1 ⟨"A", 0, 5005⟩ ⟨"B", 1, 5006⟩
     "No device connected" (by decide) (by decide) rfl rfl⟩

/-! ## Consistency of the conversion of position and orientation -/

theorem vector_ext (a b : rs2_vector ℚ) (hx : a.x = b.x) (hy : a.y = b.y) (hz : a.z = b.z) :
    a = b := by
  cases a; cases b; simp_all

/-- Counterexample to C10 as stated: for the unit quaternion `(3/5, 0, 0, 4/5)`
and the vector `(0, 1, 0)`, converting the rotated vector gives
`(0, -7/25, -24/25)` while rotating the converted vector by the converted
quaternion gives `(0, -7/25, 24/25)`. -/
theorem conversion_consistency_counterexample :
    (3 / 5 : ℚ) * (3 / 5) + 0 * 0 + 0 * 0 + (4 / 5) * (4 / 5) = 1 ∧
    convert_position (rotate ⟨3 / 5, 0, 0, 4 / 5⟩ ⟨0, 1, 0⟩) = ⟨0, -7 / 25, -24 / 25⟩ ∧
    rotate (convert_rotation ⟨3 / 5, 0, 0, 4 / 5⟩) (convert_position ⟨0, 1, 0⟩)
      = ⟨0, -7 / 25, 24 / 25⟩ ∧
    ¬ (∀ (q : rs2_quaternion ℚ) (v : rs2_vector ℚ),
        q.x * q.x + q.y * q.y + q.z * q.z + q.w * q.w = 1 →
        convert_position (rotate q v) = rotate (convert_rotation q) (convert_position v)) := by
  have h1 : convert_position (rotate ⟨3 / 5, 0, 0, 4 / 5⟩ ⟨0, 1, 0⟩)
      = ⟨0, -7 / 25, -24 / 25⟩ := by
    simp only [convert_position, coordinate_conversion, rotate]
    norm_num
  have h2 : rotate (convert_rotation ⟨3 / 5, 0, 0, 4 / 5⟩) (convert_position ⟨0, 1, 0⟩)
      = ⟨0, -7 / 25, 24 / 25⟩ := by
    simp only [convert_position, convert_rotation, coordinate_conversion, rotate]
    norm_num
  refine ⟨by norm_num, h1, h2, ?_⟩
  intro h
  have h3 := h ⟨3 / 5, 0, 0, 4 / 5⟩ ⟨0, 1, 0⟩ (by norm_num)
  rw [h1, h2] at h3
  have h4 := congrArg rs2_vector.z h3
  norm_num at h4

/-- C10 (amended): the converted quaternion `(-qx, -qy, qz, qw)` is the
orientation seen through the reflection `(x, y, z) ↦ (x, y, -z)`, for every
quaternion and vector; with the position conversion `(x, y, z) ↦ (x, -y, -z)`
that the code applies, converting the rotated vector equals rotating the
converted vector by the converted quaternion for all vectors exactly when
`qx = qz = 0` or `qy = qw = 0`. -/
theorem conversion_consistency (q : rs2_quaternion ℚ) :
    (∀ v, flip_z (rotate q v) = rotate (convert_rotation q) (flip_z v)) ∧
    ((∀ v, convert_position (rotate q v) = rotate (convert_rotation q) (convert_position v))
      ↔ (q.x = 0 ∧ q.z = 0) ∨ (q.y = 0 ∧ q.w = 0)) ∧
    convert_rotation q = ⟨-q.x, -q.y, q.z, q.w⟩ ∧
    (∀ v, convert_position v = ⟨v.x, -v.y, -v.z⟩) := by
  refine ⟨?_, ⟨?_, ?_⟩, rfl, fun _ => rfl⟩
  · intro v
    apply vector_ext <;>
      simp only [flip_z, rotate, convert_rotation, coordinate_conversion] <;> ring
  · intro h
    have e1 := h ⟨1, 0, 0⟩
    have e2 := h ⟨0, 1, 0⟩
    have e3 := h ⟨0, 0, 1⟩
    have a1 := congrArg rs2_vector.y e1
    have a2 := congrArg rs2_vector.x e2
    have a3 := congrArg rs2_vector.z e2
    have a4 := congrArg rs2_vector.y e3
    simp only [convert_position, convert_rotation, coordinate_conversion, rotate] at a1 a2 a3 a4
    have xy : q.x * q.y = 0 := by linarith
    have zw : q.z * q.w = 0 := by linarith
    have yz : q.y * q.z = 0 := by linarith
    have xw : q.x * q.w = 0 := by linarith
    rcases mul_eq_zero.mp xy with hx | hy
    · rcases mul_eq_zero.mp zw with hz | hw
      · exact Or.inl ⟨hx, hz⟩
      · rcases mul_eq_zero.mp yz with hy | hz
        · exact Or.inr ⟨hy, hw⟩
        · exact Or.inl ⟨hx, hz⟩
    · rcases mul_eq_zero.mp zw with hz | hw
      · rcases mul_eq_zero.mp xw with hx | hw
        · exact Or.inl ⟨hx, hz⟩
        · exact Or.inr ⟨hy, hw⟩
      · exact Or.inr ⟨hy, hw⟩
  · intro h v
    rcases h with ⟨hx, hz⟩ | ⟨hy, hw⟩
    · apply vector_ext <;>
        simp only [convert_position, convert_rotation, coordinate_conversion, rotate, hx, hz] <;>
        ring
    · apply vector_ext <;>
        simp only [convert_position, convert_rotation, coordinate_conversion, rotate, hy, hw] <;>
        ring

/-! ## Digits -/

theorem digitChar_isDigit (d : Nat) : (digitChar d).isDigit = true := by
  unfold digitChar
  split <;> decide

theorem digitChar_ne_newline (d : Nat) : digitChar d ≠ '\n' := by
  unfold digitChar
  split <;> decide

theorem padDigits_length (k n : Nat) : (padDigits k n).length = k := by
  induction k generalizing n with
  | zero => rfl
  | succ k ih => simp [padDigits, ih]

theorem padDigits_digits (k n : Nat) : ∀ c ∈ padDigits k n, c.isDigit = true := by
  induction k generalizing n with
  | zero => simp [padDigits]
  | succ k ih =>
    intro c hc
    simp only [padDigits, List.mem_append, List.mem_singleton] at hc
    rcases hc with h | h
    · exact ih _ c h
    · rw [h]; exact digitChar_isDigit _

theorem natDigitsAux_digits (fuel n : Nat) : ∀ c ∈ natDigitsAux fuel n, c.isDigit = true := by
  induction fuel generalizing n with
  | zero =>
    intro c hc
    simp only [natDigitsAux, List.mem_singleton] at hc
    rw [hc]; exact digitChar_isDigit _
  | succ f ih =>
    intro c hc
    unfold natDigitsAux at hc
    split at hc
    · rw [List.mem_singleton] at hc
      rw [hc]; exact digitChar_isDigit _
    · rw [List.mem_append, List.mem_singleton] at hc
      rcases hc with h | h
      · exact ih _ c h
      · rw [h]; exact digitChar_isDigit _

theorem natDigitsAux_ne_nil (fuel n : Nat) : natDigitsAux fuel n ≠ [] := by
  cases fuel with
  | zero => simp [natDigitsAux]
  | succ f =>
    unfold natDigitsAux
    split <;> simp

theorem natDigits_digits (n : Nat) : ∀ c ∈ natDigits n, c.isDigit = true :=
  natDigitsAux_digits n n

theorem natDigits_ne_nil (n : Nat) : natDigits n ≠ [] := natDigitsAux_ne_nil n n

/-! ## Scanning -/

theorem span_digits_append (ds rest : List Char) (hds : ∀ c ∈ ds, c.isDigit = true)
    (hrest : ∀ c l, rest = c :: l → c.isDigit = false) :
    span_digits (ds ++ rest) = (ds, rest) := by
  induction ds with
  | nil =>
    cases rest with
    | nil => rfl
    | cons c l => simp [span_digits, hrest c l rfl]
  | cons d ds ih =>
    have h1 : d.isDigit = true := hds d (List.mem_cons_self _ _)
    have h2 := ih (fun c hc => hds c (List.mem_cons_of_mem _ hc))
    simp [span_digits, h1, h2]

theorem span_digits_all (ds : List Char) (hds : ∀ c ∈ ds, c.isDigit = true) :
    span_digits ds = (ds, []) := by
  have h := span_digits_append ds [] hds (fun c l h => by simp at h)
  simpa using h

theorem parse_sign_digit (l : List Char) (hl : ∀ c ∈ l, c.isDigit = true) :
    parse_sign l = (false, l) := by
  cases l with
  | nil => rfl
  | cons c l =>
    have h : c.isDigit = true := hl c (List.mem_cons_self _ _)
    have hne : c ≠ '-' := by
      intro hc; rw [hc] at h; revert h; decide
    unfold parse_sign
    split
    · rename_i heq
      simp only [List.cons.injEq] at heq
      exact absurd heq.1 hne
    · rfl

theorem parse_sign_signChars (s : Bool) (l : List Char)
    (hl : ∀ c l2, l = c :: l2 → c ≠ '-') :
    parse_sign (signChars s ++ l) = (s, l) := by
  cases s with
  | true => rfl
  | false =>
    simp only [signChars, Bool.false_eq_true, if_false, List.nil_append]
    unfold parse_sign
    split
    · exact absurd rfl (hl _ _ rfl)
    · rfl

/-! ## The schema of `make_json` -/

theorem fmtInt_plain (i : Int) : is_plain_int (fmtInt i) = true := by
  have hd := natDigits_digits i.natAbs
  have hn := natDigits_ne_nil i.natAbs
  unfold fmtInt is_plain_int
  split
  · simp only [parse_sign, span_digits_all _ hd]
    simp [hn]
  · simp only [parse_sign_digit _ hd, span_digits_all _ hd]
    simp [hn]

theorem fmtFixed6_finite (s : Bool) (m : Nat) (e : Int) :
    is_fixed6 (fmtFixed6 (.finite s m e)) = true := by
  have hd := natDigits_digits (scaled6 m e / 1000000)
  have hn := natDigits_ne_nil (scaled6 m e / 1000000)
  have hp := padDigits_digits 6 (scaled6 m e % 1000000)
  have hl := padDigits_length 6 (scaled6 m e % 1000000)
  have h1 : parse_sign (signChars s ++ (natDigits (scaled6 m e / 1000000)
      ++ '.' :: padDigits 6 (scaled6 m e % 1000000)))
      = (s, natDigits (scaled6 m e / 1000000) ++ '.' :: padDigits 6 (scaled6 m e % 1000000)) := by
    apply parse_sign_signChars
    intro c l2 h
    cases hnd : natDigits (scaled6 m e / 1000000) with
    | nil => exact absurd hnd hn
    | cons d ds =>
      rw [hnd] at h
      simp only [List.cons_append, List.cons.injEq] at h
      have hdig : d.isDigit = true := hd d (by rw [hnd]; exact List.mem_cons_self _ _)
      intro hc
      rw [h.1, hc] at hdig
      revert hdig; decide
  have h2 : span_digits (natDigits (scaled6 m e / 1000000)
      ++ '.' :: padDigits 6 (scaled6 m e % 1000000))
      = (natDigits (scaled6 m e / 1000000), '.' :: padDigits 6 (scaled6 m e % 1000000)) := by
    apply span_digits_append _ _ hd
    intro c l h
    simp only [List.cons.injEq] at h
    rw [← h.1]; decide
  unfold fmtFixed6 is_fixed6
  simp only [List.append_assoc, h1, h2, span_digits_all _ hp, hl]
  simp [hn]

theorem signChars_no_newline (s : Bool) : '\n' ∉ signChars s := by
  cases s <;> simp [signChars]

theorem digits_no_newline (l : List Char) (h : ∀ c ∈ l, c.isDigit = true) : '\n' ∉ l := by
  intro hm
  have := h _ hm
  revert this; decide

theorem fmtInt_no_newline (i : Int) : '\n' ∉ fmtInt i := by
  have h := digits_no_newline _ (natDigits_digits i.natAbs)
  unfold fmtInt
  split
  · simp only [List.mem_cons, not_or]
    exact ⟨by decide, h⟩
  · exact h

theorem fmtFixed6_no_newline (x : Fp) : '\n' ∉ fmtFixed6 x := by
  cases x with
  | finite s m e =>
    simp only [fmtFixed6, List.mem_append, List.mem_cons, not_or]
    exact ⟨⟨signChars_no_newline s, digits_no_newline _ (natDigits_digits _)⟩, by decide,
      digits_no_newline _ (padDigits_digits _ _)⟩
  | inf s =>
    simp only [fmtFixed6, List.mem_append, not_or]
    exact ⟨signChars_no_newline s, by decide⟩
  | nan s =>
    simp only [fmtFixed6, List.mem_append, not_or]
    exact ⟨signChars_no_newline s, by decide⟩

theorem make_json_data (droneId : Int) (timestamp px py pz qx qy qz qw : Fp) (conf : Int) :
    (make_json droneId timestamp px py pz qx qy qz qw conf).data
      = "\x7b\"DroneId\":".data ++ (fmtInt droneId ++ (",\"Timestamp\":".data
        ++ (fmtFixed6 timestamp ++ (",\"Position\":\x7b\"x\":".data ++ (fmtFixed6 px
        ++ (",\"y\":".data ++ (fmtFixed6 py ++ (",\"z\":".data ++ (fmtFixed6 pz
        ++ ("\x7d,\"Rotation\":\x7b\"x\":".data ++ (fmtFixed6 qx ++ (",\"y\":".data
        ++ (fmtFixed6 qy ++ (",\"z\":".data ++ (fmtFixed6 qz ++ (",\"w\":".data
        ++ (fmtFixed6 qw ++ ("\x7d,\"TrackingConfidence\":".data
        ++ (fmtInt conf ++ "\x7d".data))))))))))))))))))) := by
  simp only [make_json, String.data_append, List.append_assoc]
  rfl

set_option maxRecDepth 100000 in
/-- Counterexample to C2 as stated: a NaN position (a value the SDK can
deliver in a `float`) is printed as `nan`, not in fixed notation with six
digits after the point. -/
theorem make_json_fixed6_counterexample :
    make_json 0 (.finite false 3 (-1)) (.nan false) (.finite false 0 0) (.finite false 0 0)
        (.finite false 0 0) (.finite false 0 0) (.finite false 0 0) (.finite false 1 0) 3
      = "\x7b\"DroneId\":0,\"Timestamp\":1.500000,\"Position\":\x7b\"x\":nan,\"y\":0.000000,\"z\":0.000000\x7d,\"Rotation\":\x7b\"x\":0.000000,\"y\":0.000000,\"z\":0.000000,\"w\":1.000000\x7d,\"TrackingConfidence\":3\x7d" ∧
    is_fixed6 (fmtFixed6 (.nan false)) = false ∧
    ¬ (∀ x : Fp, is_fixed6 (fmtFixed6 x) = true) := by
  refine ⟨by decide, by decide, ?_⟩
  intro h
  exact absurd (h (.nan false)) (by decide)

/-- C2 (amended): `make_json` is total and returns, for all inputs, the fixed
schema with the keys in order, identifier and confidence as plain decimal
integers, and no newline; every finite floating value is printed in fixed
notation with exactly six digits after the point, while an infinity or a NaN
is passed through as a non-numeric token, never as a six-decimal number. -/
theorem make_json_schema (droneId : Int) (timestamp px py pz qx qy qz qw : Fp) (conf : Int) :
    make_json droneId timestamp px py pz qx qy qz qw conf
      = record_schema (String.mk (fmtInt droneId)) (String.mk (fmtFixed6 timestamp))
          (String.mk (fmtFixed6 px)) (String.mk (fmtFixed6 py)) (String.mk (fmtFixed6 pz))
          (String.mk (fmtFixed6 qx)) (String.mk (fmtFixed6 qy)) (String.mk (fmtFixed6 qz))
          (String.mk (fmtFixed6 qw)) (String.mk (fmtInt conf)) ∧
    is_plain_int (fmtInt droneId) = true ∧
    is_plain_int (fmtInt conf) = true ∧
    (∀ s m e, is_fixed6 (fmtFixed6 (.finite s m e)) = true) ∧
    (∀ s, is_fixed6 (fmtFixed6 (.inf s)) = false ∧ is_fixed6 (fmtFixed6 (.nan s)) = false) ∧
    '\n' ∉ (make_json droneId timestamp px py pz qx qy qz qw conf).data := by
  refine ⟨?_, fmtInt_plain _, fmtInt_plain _, fmtFixed6_finite,
    fun s => by cases s <;> exact ⟨by decide, by decide⟩, ?_⟩
  · apply String.ext
    rw [make_json_data]
    simp only [record_schema, String.data_append, List.append_assoc]
  · rw [make_json_data]
    simp only [List.mem_append, not_or]
    exact ⟨by decide, fmtInt_no_newline _, by decide, fmtFixed6_no_newline _, by decide,
      fmtFixed6_no_newline _, by decide, fmtFixed6_no_newline _, by decide,
      fmtFixed6_no_newline _, by decide, fmtFixed6_no_newline _, by decide,
      fmtFixed6_no_newline _, by decide, fmtFixed6_no_newline _, by decide,
      fmtFixed6_no_newline _, by decide, fmtInt_no_newline _, by decide⟩

/-! ## Reading back what `make_json` writes -/

theorem digitVal_digitChar (d : Nat) (h : d < 10) : digitVal (digitChar d) = d := by
  interval_cases d <;> rfl

theorem parse_digits_snoc (ds : List Char) (c : Char) :
    parse_digits (ds ++ [c]) = 10 * parse_digits ds + digitVal c := by
  simp [parse_digits, List.foldl_append]

theorem parse_digits_padDigits (k n : Nat) : parse_digits (padDigits k n) = n % 10 ^ k := by
  induction k generalizing n with
  | zero => simp [padDigits, parse_digits, Nat.mod_one]
  | succ k ih =>
    rw [padDigits, parse_digits_snoc, ih, digitVal_digitChar _ (Nat.mod_lt _ (by decide)),
      pow_succ, Nat.mul_comm (10 ^ k) 10, Nat.mod_mul]
    omega

theorem parse_digits_natDigitsAux (fuel n : Nat) (h : n ≤ fuel) :
    parse_digits (natDigitsAux fuel n) = n := by
  induction fuel generalizing n with
  | zero =>
    have h0 : n = 0 := by omega
    subst h0; rfl
  | succ f ih =>
    unfold natDigitsAux
    split
    · rename_i hlt
      simp [parse_digits, digitVal_digitChar n hlt]
    · rw [parse_digits_snoc, ih (n / 10) (by omega),
        digitVal_digitChar _ (Nat.mod_lt _ (by decide))]
      omega

theorem parse_digits_natDigits (n : Nat) : parse_digits (natDigits n) = n :=
  parse_digits_natDigitsAux n n (Nat.le_refl n)

theorem expect_text_append (key rest : List Char) : expect_text key (key ++ rest) = some rest := by
  induction key with
  | nil => cases rest <;> rfl
  | cons c cs ih => simp [expect_text, ih]

theorem non_digit_start_spec (rest : List Char) (h : non_digit_start rest = true) :
    ∀ c l, rest = c :: l → c.isDigit = false := by
  intro c l hc
  subst hc
  simpa [non_digit_start] using h

theorem digits_head_ne_minus (ds rest : List Char) (hds : ∀ c ∈ ds, c.isDigit = true)
    (hne : ds ≠ []) : ∀ c l, ds ++ rest = c :: l → c ≠ '-' := by
  intro c l h
  cases ds with
  | nil => exact absurd rfl hne
  | cons d ds =>
    simp only [List.cons_append, List.cons.injEq] at h
    have hd : d.isDigit = true := hds d (List.mem_cons_self _ _)
    intro hc
    rw [h.1, hc] at hd
    revert hd; decide

theorem parse_int_fmtInt (i : Int) (rest : List Char) (h : non_digit_start rest = true) :
    parse_int (fmtInt i ++ rest) = some (i, rest) := by
  have hd := natDigits_digits i.natAbs
  have hn := natDigits_ne_nil i.natAbs
  have hsp := span_digits_append _ rest hd (non_digit_start_spec rest h)
  unfold fmtInt parse_int
  split
  · rename_i hneg
    simp only [List.cons_append, parse_sign, hsp, parse_digits_natDigits]
    simp only [List.isEmpty_eq_true, hn, if_false, if_true]
    congr 2
    omega
  · rename_i hneg
    have hs : parse_sign (natDigits i.natAbs ++ rest) = (false, natDigits i.natAbs ++ rest) := by
      have := parse_sign_signChars false (natDigits i.natAbs ++ rest)
        (digits_head_ne_minus _ rest hd hn)
      simpa [signChars] using this
    simp only [hs, hsp, parse_digits_natDigits]
    simp only [List.isEmpty_eq_true, hn, if_false, Bool.false_eq_true]
    congr 2
    omega

theorem parse_number_fmtFixed6 (x : Fp) (hx : x.isFinite = true) (rest : List Char)
    (h : non_digit_start rest = true) :
    parse_number (fmtFixed6 x ++ rest) = some (fixed_value x, rest) := by
  cases x with
  | inf s => simp [Fp.isFinite] at hx
  | nan s => simp [Fp.isFinite] at hx
  | finite s m e =>
    have hd := natDigits_digits (scaled6 m e / 1000000)
    have hn := natDigits_ne_nil (scaled6 m e / 1000000)
    have hp := padDigits_digits 6 (scaled6 m e % 1000000)
    have hl := padDigits_length 6 (scaled6 m e % 1000000)
    have hpn : padDigits 6 (scaled6 m e % 1000000) ≠ [] := by
      intro h0; rw [h0] at hl; simp at hl
    have h1 : parse_sign (signChars s ++ (natDigits (scaled6 m e / 1000000)
        ++ ('.' :: (padDigits 6 (scaled6 m e % 1000000) ++ rest))))
        = (s, natDigits (scaled6 m e / 1000000)
            ++ ('.' :: (padDigits 6 (scaled6 m e % 1000000) ++ rest))) :=
      parse_sign_signChars s _ (digits_head_ne_minus _ _ hd hn)
    have h2 : span_digits (natDigits (scaled6 m e / 1000000)
        ++ ('.' :: (padDigits 6 (scaled6 m e % 1000000) ++ rest)))
        = (natDigits (scaled6 m e / 1000000),
            '.' :: (padDigits 6 (scaled6 m e % 1000000) ++ rest)) := by
      apply span_digits_append _ _ hd
      intro c l hc
      simp only [List.cons.injEq] at hc
      rw [← hc.1]; decide
    have h3 := span_digits_append _ rest hp (non_digit_start_spec rest h)
    unfold fmtFixed6 parse_number
    simp only [List.append_assoc, List.cons_append, h1, h2, h3, hl, parse_digits_natDigits,
      parse_digits_padDigits]
    simp only [List.isEmpty_eq_true, hn, hpn, if_false]
    congr 2
    unfold fixed_value
    congr 1
    have hmod : scaled6 m e % 1000000 % 10 ^ 6 = scaled6 m e % 1000000 :=
      Nat.mod_eq_of_lt (Nat.mod_lt _ (by norm_num))
    rw [hmod]
    have hdm : (scaled6 m e : ℚ)
        = ((scaled6 m e / 1000000 : Nat) : ℚ) * 1000000 + ((scaled6 m e % 1000000 : Nat) : ℚ) := by
      have := Nat.div_add_mod (scaled6 m e) 1000000
      have h4 : ((1000000 * (scaled6 m e / 1000000) + scaled6 m e % 1000000 : Nat) : ℚ)
          = (scaled6 m e : ℚ) := by rw [this]
      push_cast at h4
      linarith
    rw [hdm]
    norm_num
    ring

theorem roundHalfEven_close (num den : Nat) (hden : 0 < den) :
    |(roundHalfEven num den : ℚ) - (num : ℚ) / den| ≤ 1 / 2 := by
  have hd : (0 : ℚ) < den := by exact_mod_cast hden
  have hnum : (num : ℚ) = (den : ℚ) * ((num / den : Nat) : ℚ) + ((num % den : Nat) : ℚ) := by
    have h := Nat.div_add_mod num den
    have h4 : ((den * (num / den) + num % den : Nat) : ℚ) = (num : ℚ) := by rw [h]
    push_cast at h4
    linarith
  have hr : ((num % den : Nat) : ℚ) < den := by exact_mod_cast Nat.mod_lt num hden
  have hr0 : (0 : ℚ) ≤ ((num % den : Nat) : ℚ) := Nat.cast_nonneg _
  have key : ∀ N : ℚ, |N * den - num| ≤ den / 2 → |N - (num : ℚ) / den| ≤ 1 / 2 := by
    intro N hN
    have e : N - (num : ℚ) / den = (N * den - num) / den := by field_simp
    rw [e, abs_div, abs_of_pos hd, div_le_iff₀ hd]
    linarith
  unfold roundHalfEven
  simp only
  split
  · rename_i h1
    have h1q : (2 : ℚ) * ((num % den : Nat) : ℚ) < den := by exact_mod_cast h1
    apply key
    rw [abs_le]
    constructor <;> linarith
  · rename_i h1
    split
    · rename_i h2
      have h2q : (den : ℚ) < 2 * ((num % den : Nat) : ℚ) := by exact_mod_cast h2
      apply key
      push_cast
      rw [abs_le]
      constructor <;> linarith
    · rename_i h2
      have h3 : 2 * (num % den) = den := by omega
      have h3q : (2 : ℚ) * ((num % den : Nat) : ℚ) = den := by exact_mod_cast h3
      split
      · apply key
        rw [abs_le]
        constructor <;> linarith
      · apply key
        push_cast
        rw [abs_le]
        constructor <;> linarith

theorem fixed_value_close (x : Fp) (hx : x.isFinite = true) :
    |fixed_value x - x.toRat| ≤ 1 / 2000000 := by
  cases x with
  | inf s => simp [Fp.isFinite] at hx
  | nan s => simp [Fp.isFinite] at hx
  | finite s m e =>
    have hsign : ∀ a b : ℚ, |(if s = true then (-1 : ℚ) else 1) * a
        - (if s = true then (-1 : ℚ) else 1) * b| = |a - b| := by
      intro a b
      cases s
      · simp
      · simp only [if_true]
        rw [show (-1 : ℚ) * a - -1 * b = -(a - b) by ring, abs_neg]
    show |(if s = true then (-1 : ℚ) else 1) * ((scaled6 m e : ℚ) / 1000000)
        - (if s = true then (-1 : ℚ) else 1) * (m : ℚ) * (2 : ℚ) ^ e| ≤ 1 / 2000000
    rw [mul_assoc, hsign]
    cases e with
    | ofNat k =>
      have : scaled6 m (Int.ofNat k) = m * 2 ^ k * 1000000 := rfl
      rw [this]
      push_cast
      simp only [Int.ofNat_eq_coe, zpow_natCast]
      rw [show (m : ℚ) * 2 ^ k * 1000000 / 1000000 - m * 2 ^ k = 0 by ring]
      norm_num
    | negSucc k =>
      have : scaled6 m (Int.negSucc k) = roundHalfEven (m * 1000000) (2 ^ (k + 1)) := rfl
      rw [this, zpow_negSucc]
      have hc := roundHalfEven_close (m * 1000000) (2 ^ (k + 1)) (by positivity)
      push_cast at hc
      have e1 : (roundHalfEven (m * 1000000) (2 ^ (k + 1)) : ℚ) / 1000000
            - (m : ℚ) * (2 ^ (k + 1))⁻¹
          = ((roundHalfEven (m * 1000000) (2 ^ (k + 1)) : ℚ)
              - (m : ℚ) * 1000000 / 2 ^ (k + 1)) / 1000000 := by
        field_simp
        ring
      rw [e1, abs_div, abs_of_pos (by norm_num : (0 : ℚ) < 1000000), div_le_iff₀ (by norm_num)]
      linarith


theorem parse_key_number_fmt (key : List Char) (x : Fp) (hx : x.isFinite = true)
    (rest : List Char) (h : non_digit_start rest = true) :
    parse_key_number key (key ++ (fmtFixed6 x ++ rest)) = some (fixed_value x, rest) := by
  rw [parse_key_number, expect_text_append, Option.some_bind, parse_number_fmtFixed6 x hx rest h]

theorem parse_key_int_fmt (key : List Char) (i : Int) (rest : List Char)
    (h : non_digit_start rest = true) :
    parse_key_int key (key ++ (fmtInt i ++ rest)) = some (i, rest) := by
  rw [parse_key_int, expect_text_append, Option.some_bind, parse_int_fmtInt i rest h]

theorem parse_record_make_json (droneId conf : Int) (ts px py pz qx qy qz qw : Fp)
    (hts : ts.isFinite = true) (hpx : px.isFinite = true) (hpy : py.isFinite = true)
    (hpz : pz.isFinite = true) (hqx : qx.isFinite = true) (hqy : qy.isFinite = true)
    (hqz : qz.isFinite = true) (hqw : qw.isFinite = true) :
    parse_record (make_json droneId ts px py pz qx qy qz qw conf)
      = some { DroneId := droneId, Timestamp := fixed_value ts,
               Position := ⟨fixed_value px, fixed_value py, fixed_value pz⟩,
               Rotation := ⟨fixed_value qx, fixed_value qy, fixed_value qz, fixed_value qw⟩,
               TrackingConfidence := conf } := by
  unfold parse_record parse_position parse_rotation
  rw [make_json_data]
  rw [parse_key_int_fmt _ _ _ ?c0, Option.some_bind]
  simp only []
  rw [parse_key_number_fmt _ _ hts _ ?c1, Option.some_bind]
  simp only []
  rw [parse_key_number_fmt _ _ hpx _ ?c2, Option.some_bind]
  simp only []
  rw [parse_key_number_fmt _ _ hpy _ ?c3, Option.some_bind]
  simp only []
  rw [parse_key_number_fmt _ _ hpz _ ?c4, Option.some_bind, Option.some_bind]
  simp only []
  rw [parse_key_number_fmt _ _ hqx _ ?c5, Option.some_bind]
  simp only []
  rw [parse_key_number_fmt _ _ hqy _ ?c6, Option.some_bind]
  simp only []
  rw [parse_key_number_fmt _ _ hqz _ ?c7, Option.some_bind]
  simp only []
  rw [parse_key_number_fmt _ _ hqw _ ?c8, Option.some_bind, Option.some_bind]
  simp only []
  rw [parse_key_int_fmt _ _ _ ?c9, Option.some_bind]
  simp only []
  have h : expect_text "\x7d".data ("\x7d".data ++ []) = some [] := expect_text_append _ _
  rw [List.append_nil] at h
  rw [h, Option.some_bind]
  all_goals rfl

/-- C3: for every identifier and confidence and all finite floating values,
parsing the record written by `make_json` succeeds, returns the identifier and
the confidence exactly, and returns each of the eight floating fields within
half a unit of the sixth decimal place of the value that was serialized. -/
theorem make_json_round_trip (droneId conf : Int) (ts px py pz qx qy qz qw : Fp)
    (hts : ts.isFinite = true) (hpx : px.isFinite = true) (hpy : py.isFinite = true)
    (hpz : pz.isFinite = true) (hqx : qx.isFinite = true) (hqy : qy.isFinite = true)
    (hqz : qz.isFinite = true) (hqw : qw.isFinite = true) :
    ∃ r, parse_record (make_json droneId ts px py pz qx qy qz qw conf) = some r ∧
      r.DroneId = droneId ∧ r.TrackingConfidence = conf ∧
      |r.Timestamp - ts.toRat| ≤ 1 / 2000000 ∧
      |r.Position.x - px.toRat| ≤ 1 / 2000000 ∧
      |r.Position.y - py.toRat| ≤ 1 / 2000000 ∧
      |r.Position.z - pz.toRat| ≤ 1 / 2000000 ∧
      |r.Rotation.x - qx.toRat| ≤ 1 / 2000000 ∧
      |r.Rotation.y - qy.toRat| ≤ 1 / 2000000 ∧
      |r.Rotation.z - qz.toRat| ≤ 1 / 2000000 ∧
      |r.Rotation.w - qw.toRat| ≤ 1 / 2000000 :=
  ⟨_, parse_record_make_json droneId conf ts px py pz qx qy qz qw hts hpx hpy hpz hqx hqy hqz hqw,
    rfl, rfl, fixed_value_close ts hts, fixed_value_close px hpx, fixed_value_close py hpy,
    fixed_value_close pz hpz, fixed_value_close qx hqx, fixed_value_close qy hqy,
    fixed_value_close qz hqz, fixed_value_close qw hqw⟩

/-- Witness for C3 on the pose of the specification's example. -/
theorem make_json_round_trip_witness :
    ((Fp.finite false 3 (-1)).isFinite = true ∧
     sample_pose.translation.x.isFinite = true ∧ sample_pose.translation.y.isFinite = true ∧
     sample_pose.translation.z.isFinite = true ∧ sample_pose.rotation.x.isFinite = true ∧
     sample_pose.rotation.y.isFinite = true ∧ sample_pose.rotation.z.isFinite = true ∧
     sample_pose.rotation.w.isFinite = true) ∧
    ∃ r, parse_record (make_json 0 (.finite false 3 (-1))
          sample_pose.translation.x sample_pose.translation.y sample_pose.translation.z
          sample_pose.rotation.x sample_pose.rotation.y sample_pose.rotation.z
          sample_pose.rotation.w 2) = some r ∧
      r.DroneId = 0 ∧ r.TrackingConfidence = 2 ∧
      |r.Timestamp - (Fp.finite false 3 (-1)).toRat| ≤ 1 / 2000000 ∧
      |r.Position.x - sample_pose.translation.x.toRat| ≤ 1 / 2000000 ∧
      |r.Position.y - sample_pose.translation.y.toRat| ≤ 1 / 2000000 ∧
      |r.Position.z - sample_pose.translation.z.toRat| ≤ 1 / 2000000 ∧
      |r.Rotation.x - sample_pose.rotation.x.toRat| ≤ 1 / 2000000 ∧
      |r.Rotation.y - sample_pose.rotation.y.toRat| ≤ 1 / 2000000 ∧
      |r.Rotation.z - sample_pose.rotation.z.toRat| ≤ 1 / 2000000 ∧
      |r.Rotation.w - sample_pose.rotation.w.toRat| ≤ 1 / 2000000 :=
  ⟨⟨rfl, rfl, rfl, rfl, rfl, rfl, rfl, rfl⟩,
   make_json_round_trip 0 2 (.finite false 3 (-1))
     sample_pose.translation.x sample_pose.translation.y sample_pose.translation.z
     sample_pose.rotation.x sample_pose.rotation.y sample_pose.rotation.z
     sample_pose.rotation.w rfl rfl rfl rfl rfl rfl rfl rfl⟩

end T265
